import Mathlib

/-!
Shallow embedding of the `temporal_utils` repository core:
`src/src/temporal_utils/validation.py` (contract validator) and
`src/temporal_utils/collectors.py` (declaration graph collector),
together with proofs of the spec claims about them.
-/

namespace TemporalUtils

/-- Python substring test `sub in s` (membership of `in` on `str`). -/
def pyIn (sub s : String) : Bool := decide (List.IsInfix sub.toList s.toList)

/-- Python `str.lower()` (ASCII case used by the source's class names),
computed characterwise so it reduces definitionally. -/
def pyLower (s : String) : String := String.mk (s.toList.map Char.toLower)

/-- Rendering of a Python `list[str]` inside an f-string (its `repr`):
comma-separated single-quoted items in square brackets.  The source only
renders lists of plain identifiers and message strings this way; escaping of
embedded quote characters is elided since no claim depends on it. -/
def joinComma : List String → String
  | [] => ""
  | [s] => s
  | s :: rest => s ++ ", " ++ joinComma rest

def pyStrListRepr (l : List String) : String :=
  "[" ++ joinComma (l.map (fun s => "\x27" ++ s ++ "\x27")) ++ "]"

/-- The three Python-level facts about an annotation object that
`_throw_if_annotation_is_dataclass_or_not_child_of_basemodel` inspects:
its truthiness (`if not annotation_from_inspect`), whether it carries the
pydantic `__pydantic_fields_set__` attribute, and `dataclasses.is_dataclass`. -/
structure PyAnn where
  isTruthy : Bool
  hasPydanticFieldsSet : Bool
  isDataclass : Bool
deriving DecidableEq, Repr

/-- Python `None` (also the result of `annotations.get("return")` when the
return annotation is absent): falsy, no pydantic fields, not a dataclass. -/
def pyNoneAnn : PyAnn := ⟨false, false, false⟩

/-- `inspect.Parameter.empty`, the value of `.annotation` for a parameter
declared without a type hint: it is a class object, hence truthy, without
pydantic fields and not a dataclass. -/
def pyEmptyParamAnn : PyAnn := ⟨true, false, false⟩

/-- A pydantic `BaseModel` subclass that is not a dataclass: the accepted
model family without conflict. -/
def pydanticModelAnn : PyAnn := ⟨true, true, false⟩

/-- A type in neither family (e.g. `int`, a plain class): truthy, no
pydantic fields. -/
def plainTypeAnn : PyAnn := ⟨true, false, false⟩

/-- A type that is both a `BaseModel` subclass and a dataclass: the
ambiguous dual-family case. -/
def dualFamilyAnn : PyAnn := ⟨true, true, true⟩

/-- Python values stored in class attributes (only the shape the
default-opts rule inspects: `None`, `dict`, anything else). -/
inductive PyObj where
  | pynone : PyObj
  | pydict : List (String × PyObj) → PyObj
  | pyother : String → PyObj
deriving Repr

/-- `isinstance(v, dict)`. -/
def PyObj.isDict : PyObj → Bool
  | PyObj.pydict _ => true
  | _ => false

/-- `v is None`. -/
def PyObj.isNone : PyObj → Bool
  | PyObj.pynone => true
  | _ => false

/-- `d[k]` / `k in d` on a dict with distinct keys (first binding wins). -/
def pyDictGet (entries : List (String × PyObj)) (k : String) : Option PyObj :=
  (entries.find? (fun e => e.1 == k)).map (fun e => e.2)

/-- One parameter as seen through `inspect.signature(...).parameters`:
its name and its annotation facts. -/
structure PyParam where
  pname : String
  ann : PyAnn
deriving Repr

/-- One function member of a class as reflection exposes it: its name, its
full parameter list (including the receiver `self` when declared), its
return-annotation facts (`pyNoneAnn` when absent), and the set of marker
attributes set on the function object by decorators (`hasattr` checks). -/
structure PyMethod where
  mname : String
  params : List PyParam
  retAnn : PyAnn
  markers : List String
deriving Repr

/-- One class: object identity, `__name__`, `__module__` (with
`hasattr(item, "__module__")`), its function members in
`inspect.getmembers` enumeration order, and its class attributes. -/
structure PyClass where
  objId : Nat
  cname : String
  moduleName : String
  hasModuleAttr : Bool
  methods : List PyMethod
  attrs : List (String × PyObj)
deriving Repr

/-- `TemporalUtilsValidationError`: carries the top-level message and the
`error_msgs` list. -/
structure TemporalUtilsValidationError where
  message : String
  error_msgs : List String
deriving Repr

/-- The class's `__init__`: when `error_msgs` is empty it defaults to
`[message]`. -/
def mkValidationError (message : String) (msgs : List String) :
    TemporalUtilsValidationError :=
  if msgs.isEmpty then ⟨message, [message]⟩ else ⟨message, msgs⟩

/-- A validator-class configuration: the marker attribute searched for, the
required opts keys, and the validator class's `__name__` (used in the
tagging of error messages, via `self.__class__.__name__`). -/
structure Policy where
  searchAttr : String
  optsKeysThatMustBeSet : List String
  validatorClassName : String

def temporalActivityDefnSearchAttr : String := "__temporal_activity_definition"

/-- `TemporalActivityValidators`: marker and required opts keys. -/
def activityPolicy : Policy :=
  ⟨temporalActivityDefnSearchAttr,
   ["start_to_close_timeout", "retry_policy"],
   "TemporalActivityValidators"⟩

/-- `TemporalWorkflowValidators`: marker and required opts keys. -/
def workflowPolicy : Policy :=
  ⟨"__temporal_workflow_run",
   ["execution_timeout", "run_timeout"],
   "TemporalWorkflowValidators"⟩

/-- `_generate_opts_name`. -/
def generateOptsName (methodName : String) : String := "opts_" ++ methodName

/-- `getattr(class_to_validate, opts_name)` over the class attribute map. -/
def lookupAttr (attrs : List (String × PyObj)) (aname : String) : Option PyObj :=
  (attrs.find? (fun e => e.1 == aname)).map (fun e => e.2)

/-- `_throw_if_annotation_is_dataclass_or_not_child_of_basemodel`:
`None` for a falsy annotation, `False` when the annotation lacks
`__pydantic_fields_set__` or is a dataclass, `True` otherwise. -/
def throwIfAnnIsDataclassOrNotChildOfBasemodel (a : PyAnn) : Option Bool :=
  if !a.isTruthy then none
  else if !a.hasPydanticFieldsSet then some false
  else if a.isDataclass then some false
  else some true

/-- `key in opts and opts[key] is not None`. -/
def optsKeySet (entries : List (String × PyObj)) (k : String) : Bool :=
  match pyDictGet entries k with
  | some v => !v.isNone
  | none => false

/-- `_validate_method_has_a_default_opts`.  The "`to the ...`" tail of the
missing-attribute message renders `class_to_validate.__class__.__name__`,
which for a class argument is its metaclass `type`. -/
def validateMethodHasADefaultOpts (p : Policy) (c : PyClass)
    (methodName : String) (_mt : PyMethod) : List String :=
  match lookupAttr c.attrs (generateOptsName methodName) with
  | none =>
      ["Class `" ++ c.cname ++ "` created Temporal activity `" ++ methodName ++
       "` without providing default options for executing it. Please add a class attribute `" ++
       generateOptsName methodName ++ "` to the type."]
  | some opts =>
      match opts with
      | PyObj.pydict entries =>
          if !(p.optsKeysThatMustBeSet.all (fun key => optsKeySet entries key)) then
            ["Class `" ++ c.cname ++ "` created Temporal activity `" ++ methodName ++
             "` without setting all required execution options. Please add the following keys to `" ++
             generateOptsName methodName ++ "`: " ++ pyStrListRepr p.optsKeysThatMustBeSet]
          else []
      | _ =>
          ["Class `" ++ c.cname ++ "` created Temporal activity `" ++ methodName ++
           "` with invalid execution options. `" ++ generateOptsName methodName ++
           "` should be a dict."]

/-- `_validate_method_takes_a_single_arg`: `len(signature.parameters)`
counts the receiver. -/
def validateMethodTakesASingleArg (_p : Policy) (_c : PyClass)
    (methodName : String) (mt : PyMethod) : List String :=
  if mt.params.length ≤ 1 then
    ["No input defined for Activity `" ++ methodName ++
     "`. Activities should take a single argument (not including `self`)."]
  else if mt.params.length > 2 then
    ["Too many arguments defined for Activity `" ++ methodName ++
     "`. Activities should take a single argument (not including `self`)."]
  else []

/-- `_validate_method_input_arg_is_pydantic_serializable`:
`list(params.items())[1]` raises `IndexError` when fewer than two
parameters exist. -/
def validateMethodInputArgIsPydanticSerializable (_p : Policy) (_c : PyClass)
    (methodName : String) (mt : PyMethod) : List String :=
  match mt.params[1]? with
  | none =>
      ["No input defined for Activity `" ++ methodName ++
       "`. Activities should take a single arg inherited from pydantic\x27s basemodel."]
  | some pr =>
      match throwIfAnnIsDataclassOrNotChildOfBasemodel pr.ann with
      | none =>
          ["Activity `" ++ methodName ++
           "` requires a type hint for its input argument."]
      | some false =>
          ["Activity `" ++ methodName ++ "` input argument `" ++ pr.pname ++
           "` can\x27t be a `dataclass` & must be a child of pydantic\x27s BaseModel."]
      | some true => []

/-- `_validate_method_output_is_pydantic_serializable`. -/
def validateMethodOutputIsPydanticSerializable (_p : Policy) (_c : PyClass)
    (methodName : String) (mt : PyMethod) : List String :=
  match throwIfAnnIsDataclassOrNotChildOfBasemodel mt.retAnn with
  | none =>
      ["Activity `" ++ methodName ++
       "` does not have a type hint for its return value. Please add a type hint to the return value."]
  | some false =>
      ["Activity `" ++ methodName ++
       "` return value can\x27t be a dataclass and must be a child of pydantic\x27s BaseModel."]
  | some true => []

/-- One `_validate_*` method together with its `__name__`. -/
structure NamedValidator where
  vname : String
  rule : Policy → PyClass → String → PyMethod → List String

def defaultOptsValidator : NamedValidator :=
  ⟨"_validate_method_has_a_default_opts", validateMethodHasADefaultOpts⟩

def inputSerializableValidator : NamedValidator :=
  ⟨"_validate_method_input_arg_is_pydantic_serializable",
   validateMethodInputArgIsPydanticSerializable⟩

def outputSerializableValidator : NamedValidator :=
  ⟨"_validate_method_output_is_pydantic_serializable",
   validateMethodOutputIsPydanticSerializable⟩

def singleArgValidator : NamedValidator :=
  ⟨"_validate_method_takes_a_single_arg", validateMethodTakesASingleArg⟩

/-- The validator methods found via `dir(self)` with the `_validate_`
name filter, in `dir`'s alphabetical order.  Both shipped validator
classes inherit exactly these four from `_BaseValidator`. -/
def baseValidators : List NamedValidator :=
  [defaultOptsValidator, inputSerializableValidator,
   outputSerializableValidator, singleArgValidator]

/-- The message of the no-marked-methods error. -/
def noMarkedMsg (p : Policy) (c : PyClass) : String :=
  "Class `" ++ c.cname ++ "` does not have any methods annotated with `" ++
    p.searchAttr ++
    "`. If this is intentional, please put the word `Base` somewhere in your class name. If not, did you forget to decorate your activity or workflow method with a Temporal decorator?"

/-- `_collect_methods_to_validate`: the class's function members carrying
the marker attribute; an empty selection is an error unless the class name
contains `"base"` case-insensitively. -/
def collectMethodsToValidate (p : Policy) (c : PyClass) :
    Except TemporalUtilsValidationError (List (String × PyMethod)) :=
  let fnsRequiringValidation :=
    (c.methods.filter (fun m => m.markers.contains p.searchAttr)).map
      (fun m => (m.mname, m))
  if fnsRequiringValidation.isEmpty && !(pyIn "base" (pyLower c.cname)) then
    Except.error (mkValidationError (noMarkedMsg p c) [])
  else Except.ok fnsRequiringValidation

/-- The context line appended to every violation string in
`run_validators`: `f"{e} |Reported via {self.__class__.__name__}.{validator.__name__}()"`. -/
def tagError (p : Policy) (v : NamedValidator) (e : String) : String :=
  e ++ " |Reported via " ++ p.validatorClassName ++ "." ++ v.vname ++ "()"

/-- The flattened, tagged error list built by `run_validators`'s loop. -/
def runValidatorErrors (p : Policy) (c : PyClass)
    (fns : List (String × PyMethod)) : List String :=
  fns.flatMap (fun nm =>
    baseValidators.flatMap (fun v => (v.rule p c nm.1 nm.2).map (tagError p v)))

/-- `run_validators` on a class argument.  The "no validators found"
branch is dead for both shipped validator classes (the four inherited
`_validate_` methods always exist) and is therefore not modelled. -/
def runValidatorsOnClass (p : Policy) (c : PyClass) :
    Except TemporalUtilsValidationError Unit :=
  match collectMethodsToValidate p c with
  | Except.error e => Except.error e
  | Except.ok fns =>
      let errors := runValidatorErrors p c fns
      if errors.isEmpty then Except.ok ()
      else
        Except.error (mkValidationError
          ("Validation Errors found in class `" ++ c.cname ++ "`: " ++
           pyStrListRepr errors) errors)

/-- The argument of `run_validators`: either a class (a `type`) or an
instance, which carries its class. -/
inductive PyTarget where
  | typeTarget : PyClass → PyTarget
  | instanceTarget : PyClass → PyTarget

/-- `if not isinstance(class_to_validate, type): class_to_validate =
class_to_validate.__class__` followed by the class validation. -/
def runValidators (p : Policy) (t : PyTarget) :
    Except TemporalUtilsValidationError Unit :=
  let c :=
    match t with
    | PyTarget.typeTarget c => c
    | PyTarget.instanceTarget c => c
  runValidatorsOnClass p c

/-- `validate_activity_class` with the default validator. -/
def validateActivityClass (t : PyTarget) :
    Except TemporalUtilsValidationError Unit :=
  runValidators activityPolicy t

/-! ### Declaration graph collector (`collectors.py`) -/

/-- One named member of a module as `dir`/`getattr` exposes it: a class, a
module object (carried by identity id together with its `__name__`), or
anything else. -/
inductive PyMember where
  | classMem : PyClass → PyMember
  | moduleMem : Nat → String → PyMember
  | otherMem : PyMember
deriving Repr

/-- One module: identity, `__name__`, and its members in `dir` order. -/
structure PyModuleNode where
  mid : Nat
  fullName : String
  members : List PyMember
deriving Repr

/-- A module graph: the set of live module objects, keyed by identity.
Member `moduleMem` ids may refer back to any node, so cycles are
representable. -/
abbrev ModuleGraph := List PyModuleNode

/-- Python `str.startswith`, computed characterwise so it reduces
definitionally. -/
def pyStartsWith (s pre : String) : Bool :=
  decide (List.IsPrefix pre.toList s.toList)

/-- `module.__name__.split(".")[0]`: the name up to the first dot,
computed characterwise. -/
def basePackageOf (fullName : String) : String :=
  String.mk (fullName.toList.takeWhile (fun ch => !(ch == '.')))

def findNode (g : ModuleGraph) (mid : Nat) : Option PyModuleNode :=
  g.find? (fun n => n.mid == mid)

def graphIds (g : ModuleGraph) : List Nat := (g.map (fun n => n.mid)).dedup

/-- Number of graph modules not yet in the visited set (termination
measure of the traversal). -/
def unvisitedCount (g : ModuleGraph) (visited : List Nat) : Nat :=
  ((graphIds g).filter (fun i => !(visited.contains i))).length

/-- The control stack of `_collect_from_module`: either a pending
recursive call on a module, or the continuation of the member loop of a
module already marked visited (with its base package name). -/
inductive CTask where
  | visitTask : Nat → CTask
  | scanTask : String → List PyMember → CTask

def memberSize : PyMember → Nat
  | PyMember.moduleMem _ _ => 2
  | _ => 1

def taskSize : CTask → Nat
  | CTask.visitTask _ => 1
  | CTask.scanTask _ ms => 1 + (ms.map memberSize).sum

def stackSize (ts : List CTask) : Nat := (ts.map taskSize).sum

theorem unvisitedCount_cons_sublist (g : ModuleGraph) (visited : List Nat)
    (mid : Nat) :
    List.Sublist ((graphIds g).filter (fun i => !((mid :: visited).contains i)))
      ((graphIds g).filter (fun i => !(visited.contains i))) := by
  apply List.monotone_filter_right
  intro a ha
  simp only [List.contains_cons, Bool.not_eq_true', Bool.or_eq_false_iff] at ha ⊢
  exact ha.2

theorem unvisitedCount_cons_le (g : ModuleGraph) (visited : List Nat)
    (mid : Nat) : unvisitedCount g (mid :: visited) ≤ unvisitedCount g visited :=
  (unvisitedCount_cons_sublist g visited mid).length_le

theorem unvisitedCount_cons_lt (g : ModuleGraph) (visited : List Nat)
    (mid : Nat) (hg : mid ∈ graphIds g) (hv : mid ∉ visited) :
    unvisitedCount g (mid :: visited) < unvisitedCount g visited := by
  have hsub := unvisitedCount_cons_sublist g visited mid
  rcases lt_or_eq_of_le hsub.length_le with h | h
  · exact h
  · exfalso
    have heq := hsub.eq_of_length h
    have hmem : mid ∈ (graphIds g).filter (fun i => !(visited.contains i)) := by
      rw [List.mem_filter]
      exact ⟨hg, by simp [hv]⟩
    rw [← heq, List.mem_filter] at hmem
    simp at hmem

theorem findNode_mem_graphIds {g : ModuleGraph} {mid : Nat}
    {node : PyModuleNode} (h : findNode g mid = some node) :
    mid ∈ graphIds g := by
  unfold findNode at h
  have hmem := List.mem_of_find?_eq_some h
  have hpred := List.find?_some h
  simp only [beq_iff_eq] at hpred
  unfold graphIds
  rw [List.mem_dedup, ← hpred]
  exact List.mem_map.mpr ⟨node, hmem, rfl⟩

theorem stackSize_cons (t : CTask) (ts : List CTask) :
    stackSize (t :: ts) = taskSize t + stackSize ts := by
  simp [stackSize]

theorem natPairLexOfLeLt {a b c d : Nat} (h1 : a ≤ c) (h2 : b < d) :
    Prod.Lex (fun x y : Nat => x < y) (fun x y : Nat => x < y) (a, b) (c, d) := by
  rcases lt_or_eq_of_le h1 with h | h
  · exact Prod.Lex.left _ _ h
  · subst h
    exact Prod.Lex.right _ h2

/-- The body of `get_all_classes_from_module_and_submodules`: the inner
depth-first `_collect_from_module` recursion, made iterative over an
explicit control stack so its state (`visited`, `all_classes`) threads
linearly.  A `visitTask` is a pending recursive call; a `scanTask` is the
remainder of the member loop of a module already marked visited.  The
source marks a module visited before scanning its members; a module
object not present in the graph is impossible at runtime and is modelled
as a module with no members. -/
def collectLoop (g : ModuleGraph) (visited : List Nat) (acc : List PyClass) :
    List CTask → List Nat × List PyClass
  | [] => (visited, acc)
  | CTask.visitTask mid :: rest =>
      if mid ∈ visited then collectLoop g visited acc rest
      else
        match hf : findNode g mid with
        | none => collectLoop g (mid :: visited) acc rest
        | some node =>
            collectLoop g (mid :: visited) acc
              (CTask.scanTask (basePackageOf node.fullName) node.members :: rest)
  | CTask.scanTask _ [] :: rest => collectLoop g visited acc rest
  | CTask.scanTask base (PyMember.classMem c :: ms) :: rest =>
      collectLoop g visited
        (if c.hasModuleAttr && pyStartsWith c.moduleName base then acc ++ [c] else acc)
        (CTask.scanTask base ms :: rest)
  | CTask.scanTask base (PyMember.moduleMem mid mname :: ms) :: rest =>
      if pyStartsWith mname base then
        collectLoop g visited acc
          (CTask.visitTask mid :: CTask.scanTask base ms :: rest)
      else collectLoop g visited acc (CTask.scanTask base ms :: rest)
  | CTask.scanTask base (PyMember.otherMem :: ms) :: rest =>
      collectLoop g visited acc (CTask.scanTask base ms :: rest)
termination_by ts => (unvisitedCount g visited, stackSize ts)
decreasing_by
  · apply natPairLexOfLeLt (Nat.le_refl _)
    simp [stackSize_cons, taskSize]
  · apply natPairLexOfLeLt (unvisitedCount_cons_le g visited mid)
    simp [stackSize_cons, taskSize]
  · apply Prod.Lex.left
    exact unvisitedCount_cons_lt g visited mid (findNode_mem_graphIds hf)
      (by assumption)
  · apply natPairLexOfLeLt (Nat.le_refl _)
    simp [stackSize_cons, taskSize]
    try omega
  · apply natPairLexOfLeLt (Nat.le_refl _)
    simp [stackSize_cons, taskSize, memberSize]
    try omega
  · apply natPairLexOfLeLt (Nat.le_refl _)
    simp [stackSize_cons, taskSize, memberSize]
    try omega
  · apply natPairLexOfLeLt (Nat.le_refl _)
    simp [stackSize_cons, taskSize, memberSize]
    try omega
  · apply natPairLexOfLeLt (Nat.le_refl _)
    simp [stackSize_cons, taskSize, memberSize]
    try omega

/-- `get_all_classes_from_module_and_submodules`: run the traversal from
the root with a fresh empty `visited` set and empty `all_classes`. -/
def getAllClassesFromModuleAndSubmodules (g : ModuleGraph) (rootId : Nat) :
    List PyClass :=
  (collectLoop g [] [] [CTask.visitTask rootId]).2

/-- The `visited_modules` set at the end of the same traversal. -/
def collectVisited (g : ModuleGraph) (rootId : Nat) : List Nat :=
  (collectLoop g [] [] [CTask.visitTask rootId]).1

/-- `get_all_activity_methods_from_object`: the function members carrying
the `@activity.defn` marker attribute. -/
def getAllActivityMethodsFromObject (c : PyClass) : List PyMethod :=
  c.methods.filter (fun m => m.markers.contains temporalActivityDefnSearchAttr)

/-- `get_classes_with_activity_methods`. -/
def getClassesWithActivityMethods (classes : List PyClass) :
    List (PyClass × List PyMethod) :=
  classes.filterMap (fun c =>
    let ams := getAllActivityMethodsFromObject c
    if ams.length > 0 then some (c, ams) else none)

/-- The `error_msgs` a single class contributes inside
`bulk_validate_module_activities`'s try/except loop (empty when
`validate_activity_class` returns normally). -/
def classValidatorMsgs (c : PyClass) : List String :=
  match validateActivityClass (PyTarget.typeTarget c) with
  | Except.ok _ => []
  | Except.error e => e.error_msgs

/-- `module.__name__` of the root, used in the aggregate message. -/
def rootModuleName (g : ModuleGraph) (rootId : Nat) : String :=
  match findNode g rootId with
  | some n => n.fullName
  | none => ""

/-- `bulk_validate_module_activities`: collect all classes, keep those
with activity methods, validate each one without stopping at failures
(the try/except loop accumulates every class's `error_msgs`), and raise a
single aggregate error when any violation was found. -/
def bulkValidateModuleActivities (g : ModuleGraph) (rootId : Nat) :
    Except TemporalUtilsValidationError (List (PyClass × List PyMethod)) :=
  if ((getClassesWithActivityMethods
      (getAllClassesFromModuleAndSubmodules g rootId)).flatMap
      (fun pr => classValidatorMsgs pr.1)).isEmpty then
    Except.ok (getClassesWithActivityMethods
      (getAllClassesFromModuleAndSubmodules g rootId))
  else
    Except.error (mkValidationError
      ("Validation Errors found in module `" ++ rootModuleName g rootId ++
       "`: " ++ pyStrListRepr ((getClassesWithActivityMethods
          (getAllClassesFromModuleAndSubmodules g rootId)).flatMap
          (fun pr => classValidatorMsgs pr.1)))
      ((getClassesWithActivityMethods
        (getAllClassesFromModuleAndSubmodules g rootId)).flatMap
        (fun pr => classValidatorMsgs pr.1)))

/-! ### String helper lemmas -/

theorem toList_append (a b : String) : (a ++ b).toList = a.toList ++ b.toList := rfl

theorem string_append_left_cancel {s a b : String} (h : s ++ a = s ++ b) :
    a = b := by
  have hd := congrArg String.toList h
  exact String.ext (List.append_cancel_left hd)

theorem pyIn_of_isInfix {sub s : String}
    (h : List.IsInfix sub.toList s.toList) : pyIn sub s = true := by
  unfold pyIn
  exact decide_eq_true h

theorem pyIn_decomp (pre mid post : String) :
    pyIn mid (pre ++ mid ++ post) = true := by
  apply pyIn_of_isInfix
  rw [toList_append, toList_append]
  exact List.infix_append _ _ _

theorem isInfix_of_pyIn {k s : String} (h : pyIn k s = true) :
    List.IsInfix k.toList s.toList := by
  unfold pyIn at h
  exact of_decide_eq_true h

theorem pyIn_refl (s : String) : pyIn s s = true :=
  pyIn_of_isInfix (List.infix_refl _)

theorem pyIn_append_left {k s : String} (h : pyIn k s = true) (t : String) :
    pyIn k (s ++ t) = true := by
  apply pyIn_of_isInfix
  rw [toList_append]
  exact (isInfix_of_pyIn h).trans ⟨[], t.toList, by simp⟩

theorem pyIn_append_right {k s : String} (h : pyIn k s = true) (t : String) :
    pyIn k (t ++ s) = true := by
  apply pyIn_of_isInfix
  rw [toList_append]
  exact (isInfix_of_pyIn h).trans ⟨t.toList, [], by simp⟩

theorem isInfix_joinComma {s : String} {m : List String} (hs : s ∈ m) :
    List.IsInfix s.toList (joinComma m).toList := by
  induction m with
  | nil => cases hs
  | cons a rest ih =>
      cases rest with
      | nil =>
          rcases List.mem_singleton.mp hs with rfl
          exact List.infix_refl _
      | cons b rest2 =>
          rcases List.mem_cons.mp hs with rfl | hmem
          · have heq : joinComma (s :: b :: rest2) =
                s ++ ", " ++ joinComma (b :: rest2) := rfl
            rw [heq, toList_append, toList_append]
            exact ⟨[], ", ".toList ++ (joinComma (b :: rest2)).toList, by simp⟩
          · have hinf := ih hmem
            apply hinf.trans
            have heq : joinComma (a :: b :: rest2) =
                (a ++ ", ") ++ joinComma (b :: rest2) := rfl
            rw [heq, toList_append]
            exact ⟨(a ++ ", ").toList, [], by simp⟩

theorem pyIn_pyStrListRepr {k : String} {keys : List String} (hk : k ∈ keys) :
    pyIn k (pyStrListRepr keys) = true := by
  apply pyIn_of_isInfix
  have h1 : List.IsInfix k.toList ("\x27" ++ k ++ "\x27").toList := by
    rw [toList_append, toList_append]
    exact List.infix_append _ _ _
  have h2 : List.IsInfix ("\x27" ++ k ++ "\x27").toList
      (joinComma (keys.map (fun s => "\x27" ++ s ++ "\x27"))).toList :=
    isInfix_joinComma (List.mem_map.mpr ⟨k, hk, rfl⟩)
  have h3 : List.IsInfix
      (joinComma (keys.map (fun s => "\x27" ++ s ++ "\x27"))).toList
      (pyStrListRepr keys).toList := by
    unfold pyStrListRepr
    rw [toList_append, toList_append]
    exact List.infix_append _ _ _
  exact (h1.trans h2).trans h3

/-! ### C10: validating an instance validates its class -/

/-- C10: `run_validators(x)` on a non-type `x` first replaces `x` by its
class and then proceeds identically, so it returns exactly the same result
(same errors, same messages, same order) as on `type(x)`. -/
theorem runValidators_instance_eq_type (p : Policy) (c : PyClass) :
    runValidators p (PyTarget.instanceTarget c) =
      runValidators p (PyTarget.typeTarget c) := rfl

/-! ### C4: messages of the input-serializable rule -/

/-- The "requires a type hint" message of the input rule. -/
def inputNoHintMsg (methodName : String) : String :=
  "Activity `" ++ methodName ++ "` requires a type hint for its input argument."

/-- The single message the input rule produces for a non-serializable
annotation (used both when the type is outside the accepted model family
and when it is in both families). -/
def inputNotPydanticMsg (methodName argName : String) : String :=
  "Activity `" ++ methodName ++ "` input argument `" ++ argName ++
    "` can\x27t be a `dataclass` & must be a child of pydantic\x27s BaseModel."

/-- `self`, declared without an annotation. -/
def selfParam : PyParam := ⟨"self", pyEmptyParamAnn⟩

/-- A marked method whose input annotation is a plain type: the
wrong-family failure mode. -/
def mWrongFamilyInput : PyMethod :=
  ⟨"act", [selfParam, ⟨"act_input", plainTypeAnn⟩], pydanticModelAnn,
   [temporalActivityDefnSearchAttr]⟩

/-- A marked method whose input annotation is both a `BaseModel` child and
a dataclass: the ambiguous dual-family failure mode. -/
def mDualFamilyInput : PyMethod :=
  ⟨"act", [selfParam, ⟨"act_input", dualFamilyAnn⟩], pydanticModelAnn,
   [temporalActivityDefnSearchAttr]⟩

/-- A host class for the two methods above (the input rule ignores it). -/
def cWrongVsDual : PyClass :=
  ⟨0, "SomeActivity", "pkg.mod", true, [mWrongFamilyInput], []⟩

/-- C4 counterexample: the wrong-family annotation and the ambiguous
dual-family annotation produce the *same* violation message, so the rule
does not have three distinct messages for its three failure modes. -/
theorem inputRule_wrong_and_dual_family_share_message :
    validateMethodInputArgIsPydanticSerializable activityPolicy cWrongVsDual
        "act" mWrongFamilyInput =
      validateMethodInputArgIsPydanticSerializable activityPolicy cWrongVsDual
        "act" mDualFamilyInput ∧
    validateMethodInputArgIsPydanticSerializable activityPolicy cWrongVsDual
        "act" mWrongFamilyInput ≠ [] := by
  refine ⟨rfl, ?_⟩
  intro h
  exact absurd h (List.cons_ne_nil _ _)

/-- C4 (amended): the input rule produces exactly two distinct messages
for its failure modes: the type-hint message when the annotation value is
falsy (e.g. an explicit `None`), and one shared message for both the
wrong-family and the ambiguous dual-family annotation; the two messages
are distinct. -/
theorem inputRule_two_message_forms (p : Policy) (c : PyClass)
    (methodName : String) (mt : PyMethod) (pr : PyParam)
    (hpr : mt.params[1]? = some pr) :
    (pr.ann.isTruthy = false →
      validateMethodInputArgIsPydanticSerializable p c methodName mt =
        [inputNoHintMsg methodName]) ∧
    (pr.ann.isTruthy = true →
      (pr.ann.hasPydanticFieldsSet = false ∨ pr.ann.isDataclass = true) →
      validateMethodInputArgIsPydanticSerializable p c methodName mt =
        [inputNotPydanticMsg methodName pr.pname]) ∧
    (∀ argName, inputNoHintMsg methodName ≠ inputNotPydanticMsg methodName argName) := by
  refine ⟨?_, ?_, ?_⟩
  · intro ht
    simp [validateMethodInputArgIsPydanticSerializable, hpr,
      throwIfAnnIsDataclassOrNotChildOfBasemodel, ht, inputNoHintMsg]
  · intro ht hbad
    rcases hbad with hb | hb
    · simp [validateMethodInputArgIsPydanticSerializable, hpr,
        throwIfAnnIsDataclassOrNotChildOfBasemodel, ht, hb, inputNotPydanticMsg]
    · rcases hfs : pr.ann.hasPydanticFieldsSet with _ | _
      · simp [validateMethodInputArgIsPydanticSerializable, hpr,
          throwIfAnnIsDataclassOrNotChildOfBasemodel, ht, hfs, inputNotPydanticMsg]
      · simp [validateMethodInputArgIsPydanticSerializable, hpr,
          throwIfAnnIsDataclassOrNotChildOfBasemodel, ht, hfs, hb, inputNotPydanticMsg]
  · intro argName h
    have hd := congrArg String.toList h
    simp only [inputNoHintMsg, inputNotPydanticMsg, toList_append,
      List.append_assoc] at hd
    have h2 := List.append_cancel_left hd
    have h3 := List.append_cancel_left h2
    have hchar : "` requires a type hint for its input argument.".toList[2]? =
        ("` input argument `".toList ++ (argName.toList ++
          "` can\x27t be a `dataclass` & must be a child of pydantic\x27s BaseModel.".toList))[2]? := by
      rw [h3]
    rw [List.getElem?_append_left (by decide)] at hchar
    exact absurd hchar (by decide)

/-- C4 amended-theorem witness at concrete inputs. -/
theorem inputRule_two_message_forms_witness :
    validateMethodInputArgIsPydanticSerializable activityPolicy cWrongVsDual
        "act" mWrongFamilyInput = [inputNotPydanticMsg "act" "act_input"] :=
  ((inputRule_two_message_forms activityPolicy cWrongVsDual "act"
      mWrongFamilyInput ⟨"act_input", plainTypeAnn⟩ rfl).2.1) rfl (Or.inl rfl)

/-! ### Infrastructure lemmas about `run_validators` -/

theorem mkValidationError_msgs_of_ne {m : String} {msgs : List String}
    (h : msgs.isEmpty = false) :
    (mkValidationError m msgs).error_msgs = msgs := by
  unfold mkValidationError
  rw [h]
  rfl

theorem isEmpty_false_of_mem {α : Type} {a : α} {l : List α} (h : a ∈ l) :
    l.isEmpty = false := by
  cases hE : l.isEmpty
  · rfl
  · exact absurd (List.isEmpty_iff.mp hE ▸ h) (List.not_mem_nil _)

theorem collectMethods_ok_of_marked {p : Policy} {c : PyClass} {mt : PyMethod}
    (hmem : mt ∈ c.methods) (hmark : mt.markers.contains p.searchAttr = true) :
    collectMethodsToValidate p c = Except.ok
        ((c.methods.filter (fun m => m.markers.contains p.searchAttr)).map
          (fun m => (m.mname, m))) ∧
      (mt.mname, mt) ∈
        (c.methods.filter (fun m => m.markers.contains p.searchAttr)).map
          (fun m => (m.mname, m)) := by
  have hf : (mt.mname, mt) ∈
      (c.methods.filter (fun m => m.markers.contains p.searchAttr)).map
        (fun m => (m.mname, m)) :=
    List.mem_map.mpr ⟨mt, List.mem_filter.mpr ⟨hmem, hmark⟩, rfl⟩
  refine ⟨?_, hf⟩
  simp only [collectMethodsToValidate, isEmpty_false_of_mem hf, Bool.false_and,
    Bool.false_eq_true, if_false]

theorem runValidators_error_of_violation {p : Policy} {c : PyClass}
    {mt : PyMethod} (hmem : mt ∈ c.methods)
    (hmark : mt.markers.contains p.searchAttr = true)
    {v : NamedValidator} (hv : v ∈ baseValidators) {msg : String}
    (hmsg : msg ∈ v.rule p c mt.mname mt) :
    ∃ err, runValidatorsOnClass p c = Except.error err ∧
      tagError p v msg ∈ err.error_msgs := by
  obtain ⟨hok, hfmem⟩ := collectMethods_ok_of_marked hmem hmark
  set fns := (c.methods.filter (fun m => m.markers.contains p.searchAttr)).map
    (fun m => (m.mname, m)) with hfns
  have htag : tagError p v msg ∈ runValidatorErrors p c fns := by
    unfold runValidatorErrors
    exact List.mem_flatMap.mpr ⟨(mt.mname, mt), hfmem,
      List.mem_flatMap.mpr ⟨v, hv, List.mem_map.mpr ⟨msg, hmsg, rfl⟩⟩⟩
  have hne := isEmpty_false_of_mem htag
  refine ⟨mkValidationError
    ("Validation Errors found in class `" ++ c.cname ++ "`: " ++
      pyStrListRepr (runValidatorErrors p c fns))
    (runValidatorErrors p c fns), ?_, ?_⟩
  · unfold runValidatorsOnClass
    rw [hok]
    simp only [hne]
    rfl
  · rw [mkValidationError_msgs_of_ne hne]
    exact htag

/-! ### C5: the single-argument rule -/

/-- The "no input" message of the single-argument rule. -/
def noInputMsg (methodName : String) : String :=
  "No input defined for Activity `" ++ methodName ++
    "`. Activities should take a single argument (not including `self`)."

/-- The "too many inputs" message of the single-argument rule. -/
def tooManyArgsMsg (methodName : String) : String :=
  "Too many arguments defined for Activity `" ++ methodName ++
    "`. Activities should take a single argument (not including `self`)."

/-- Number of caller-supplied parameters of a method: its parameters
excluding the receiver. -/
def callerSuppliedCount (mt : PyMethod) : Nat := mt.params.length - 1

/-- C5: a marked method with zero caller-supplied parameters makes
`validate` raise a `TemporalUtilsValidationError` containing the "no
input" message attributed to the single-argument rule; two or more
caller-supplied parameters yield the "too many inputs" message; exactly
one caller-supplied parameter produces no single-argument violation. -/
theorem singleArg_violations (p : Policy) (c : PyClass) (mt : PyMethod)
    (hmem : mt ∈ c.methods) (hmark : mt.markers.contains p.searchAttr = true) :
    (callerSuppliedCount mt = 0 →
      ∃ err, runValidatorsOnClass p c = Except.error err ∧
        tagError p singleArgValidator (noInputMsg mt.mname) ∈ err.error_msgs) ∧
    (2 ≤ callerSuppliedCount mt →
      ∃ err, runValidatorsOnClass p c = Except.error err ∧
        tagError p singleArgValidator (tooManyArgsMsg mt.mname) ∈ err.error_msgs) ∧
    (callerSuppliedCount mt = 1 →
      validateMethodTakesASingleArg p c mt.mname mt = []) := by
  have hvmem : singleArgValidator ∈ baseValidators := by
    unfold baseValidators
    simp
  refine ⟨?_, ?_, ?_⟩
  · intro h0
    have hlen : mt.params.length ≤ 1 := by
      unfold callerSuppliedCount at h0
      omega
    have hmsg : noInputMsg mt.mname ∈
        singleArgValidator.rule p c mt.mname mt := by
      show noInputMsg mt.mname ∈ validateMethodTakesASingleArg p c mt.mname mt
      unfold validateMethodTakesASingleArg noInputMsg
      rw [if_pos hlen]
      exact List.mem_singleton.mpr rfl
    exact runValidators_error_of_violation hmem hmark hvmem hmsg
  · intro h2
    have hlen : 2 < mt.params.length := by
      unfold callerSuppliedCount at h2
      omega
    have hmsg : tooManyArgsMsg mt.mname ∈
        singleArgValidator.rule p c mt.mname mt := by
      show tooManyArgsMsg mt.mname ∈ validateMethodTakesASingleArg p c mt.mname mt
      unfold validateMethodTakesASingleArg tooManyArgsMsg
      rw [if_neg (by omega), if_pos hlen]
      exact List.mem_singleton.mpr rfl
    exact runValidators_error_of_violation hmem hmark hvmem hmsg
  · intro h1
    have hlen : mt.params.length = 2 := by
      unfold callerSuppliedCount at h1
      omega
    unfold validateMethodTakesASingleArg
    rw [hlen]
    rfl

/-- A zero-caller-argument marked activity method. -/
def mNoInput : PyMethod :=
  ⟨"act0", [selfParam], pydanticModelAnn, [temporalActivityDefnSearchAttr]⟩

/-- A class hosting `mNoInput`; its name does not occur in the
single-argument rule's message. -/
def cSlim : PyClass := ⟨1, "Slim", "pkg.mod", true, [mNoInput], []⟩

/-- C5 witness: the concrete class `Slim` with a zero-argument activity
raises with the tagged "no input" message. -/
theorem singleArg_violations_witness :
    ∃ err, runValidatorsOnClass activityPolicy cSlim = Except.error err ∧
      tagError activityPolicy singleArgValidator (noInputMsg "act0") ∈
        err.error_msgs :=
  (singleArg_violations activityPolicy cSlim mNoInput
    (by simp [cSlim]) (by rfl)).1 rfl

/-! ### C7: classes with no marked methods -/

/-- C7: a class with no marked methods raises the no-marked-methods error
naming the missing marker, unless its name contains `"base"`
case-insensitively, in which case method selection returns the empty list
and validation succeeds. -/
theorem noMarked_validation (p : Policy) (c : PyClass)
    (hnone : ∀ mt ∈ c.methods, mt.markers.contains p.searchAttr = false) :
    (pyIn "base" (pyLower c.cname) = true →
      collectMethodsToValidate p c = Except.ok [] ∧
      runValidatorsOnClass p c = Except.ok ()) ∧
    (pyIn "base" (pyLower c.cname) = false →
      runValidatorsOnClass p c =
        Except.error (mkValidationError (noMarkedMsg p c) []) ∧
      pyIn p.searchAttr (mkValidationError (noMarkedMsg p c) []).message = true) := by
  have hfilter :
      c.methods.filter (fun m => m.markers.contains p.searchAttr) = [] :=
    List.filter_eq_nil_iff.mpr (by
      intro a ha
      simpa using hnone a ha)
  constructor
  · intro hbase
    have hcol : collectMethodsToValidate p c = Except.ok [] := by
      simp only [collectMethodsToValidate, hfilter, List.map_nil,
        List.isEmpty_nil, hbase, Bool.not_true, Bool.and_false,
        Bool.false_eq_true, if_false]
    refine ⟨hcol, ?_⟩
    unfold runValidatorsOnClass
    rw [hcol]
    rfl
  · intro hbase
    constructor
    · have hcol : collectMethodsToValidate p c =
          Except.error (mkValidationError (noMarkedMsg p c) []) := by
        simp only [collectMethodsToValidate, hfilter, List.map_nil,
          List.isEmpty_nil, hbase, Bool.not_false, Bool.and_true, if_true]
      unfold runValidatorsOnClass
      rw [hcol]
    · have hmsg : (mkValidationError (noMarkedMsg p c) []).message =
          noMarkedMsg p c := rfl
      rw [hmsg]
      unfold noMarkedMsg
      exact pyIn_append_left (pyIn_append_right (pyIn_refl _) _) _

/-- An empty class flagged as a base class by its name. -/
def cBaseEmpty : PyClass := ⟨5, "BaseActivity", "pkg.mod", true, [], []⟩

/-- A class with one unmarked method and no `"base"` in its name. -/
def cForgot : PyClass :=
  ⟨6, "Forgot", "pkg.mod", true, [⟨"m1", [selfParam], pydanticModelAnn, []⟩], []⟩

/-- C7 witness: `BaseActivity` (no marked methods, base name) validates
successfully; `Forgot` (no marked methods) raises the no-marked-methods
error whose message names the marker. -/
theorem noMarked_validation_witness :
    runValidatorsOnClass activityPolicy cBaseEmpty = Except.ok () ∧
    (runValidatorsOnClass activityPolicy cForgot =
        Except.error (mkValidationError (noMarkedMsg activityPolicy cForgot) []) ∧
      pyIn activityPolicy.searchAttr
        (mkValidationError (noMarkedMsg activityPolicy cForgot) []).message = true) := by
  constructor
  · exact ((noMarked_validation activityPolicy cBaseEmpty
      (by intro mt h; simp [cBaseEmpty] at h)).1 (by decide)).2
  · exact (noMarked_validation activityPolicy cForgot
      (by
        intro mt h
        simp only [cForgot] at h
        obtain rfl := List.mem_singleton.mp h
        rfl)).2 (by decide)

/-! ### C6: the default-options rule -/

/-- The missing-attribute message of the default-options rule. -/
def optsMissingMsg (c : PyClass) (methodName : String) : String :=
  "Class `" ++ c.cname ++ "` created Temporal activity `" ++ methodName ++
    "` without providing default options for executing it. Please add a class attribute `" ++
    generateOptsName methodName ++ "` to the type."

/-- The not-a-dict message of the default-options rule. -/
def optsNotDictMsg (c : PyClass) (methodName : String) : String :=
  "Class `" ++ c.cname ++ "` created Temporal activity `" ++ methodName ++
    "` with invalid execution options. `" ++ generateOptsName methodName ++
    "` should be a dict."

/-- The missing-keys message of the default-options rule. -/
def optsMissingKeysMsg (p : Policy) (c : PyClass) (methodName : String) : String :=
  "Class `" ++ c.cname ++ "` created Temporal activity `" ++ methodName ++
    "` without setting all required execution options. Please add the following keys to `" ++
    generateOptsName methodName ++ "`: " ++ pyStrListRepr p.optsKeysThatMustBeSet

theorem defaultOpts_eq_of_none {p : Policy} {c : PyClass}
    {methodName : String} {mt : PyMethod}
    (hL : lookupAttr c.attrs (generateOptsName methodName) = none) :
    validateMethodHasADefaultOpts p c methodName mt =
      [optsMissingMsg c methodName] := by
  unfold validateMethodHasADefaultOpts optsMissingMsg
  rw [hL]

theorem defaultOpts_eq_of_not_dict {p : Policy} {c : PyClass}
    {methodName : String} {mt : PyMethod} {v : PyObj}
    (hL : lookupAttr c.attrs (generateOptsName methodName) = some v)
    (hd : v.isDict = false) :
    validateMethodHasADefaultOpts p c methodName mt =
      [optsNotDictMsg c methodName] := by
  unfold validateMethodHasADefaultOpts optsNotDictMsg
  rw [hL]
  rcases v with _ | entries | s
  · rfl
  · exact Bool.noConfusion hd
  · rfl

theorem defaultOpts_eq_of_missing_keys {p : Policy} {c : PyClass}
    {methodName : String} {mt : PyMethod} {entries : List (String × PyObj)}
    (hL : lookupAttr c.attrs (generateOptsName methodName) =
      some (PyObj.pydict entries))
    (hall : (p.optsKeysThatMustBeSet.all fun key => optsKeySet entries key)
      = false) :
    validateMethodHasADefaultOpts p c methodName mt =
      [optsMissingKeysMsg p c methodName] := by
  unfold validateMethodHasADefaultOpts optsMissingKeysMsg
  rw [hL]
  simp only [hall, Bool.not_false, if_true]

theorem defaultOpts_eq_of_all_set {p : Policy} {c : PyClass}
    {methodName : String} {mt : PyMethod} {entries : List (String × PyObj)}
    (hL : lookupAttr c.attrs (generateOptsName methodName) =
      some (PyObj.pydict entries))
    (hall : (p.optsKeysThatMustBeSet.all fun key => optsKeySet entries key)
      = true) :
    validateMethodHasADefaultOpts p c methodName mt = [] := by
  unfold validateMethodHasADefaultOpts
  rw [hL]
  simp only [hall, Bool.not_true, Bool.false_eq_true, if_false]

/-- C6: the default-options rule returns a violation iff the class lacks
the `opts_<method>` attribute, or it is not a dict, or it is a dict in
which some required key is absent or maps to `None`; in the missing-key
case every required key that is absent or null is named in the message. -/
theorem defaultOpts_characterization (p : Policy) (c : PyClass)
    (methodName : String) (mt : PyMethod) :
    (validateMethodHasADefaultOpts p c methodName mt ≠ [] ↔
      lookupAttr c.attrs (generateOptsName methodName) = none ∨
      (∃ v, lookupAttr c.attrs (generateOptsName methodName) = some v ∧
        v.isDict = false) ∨
      (∃ entries, lookupAttr c.attrs (generateOptsName methodName) =
          some (PyObj.pydict entries) ∧
        ∃ k ∈ p.optsKeysThatMustBeSet, optsKeySet entries k = false)) ∧
    (∀ entries k,
      lookupAttr c.attrs (generateOptsName methodName) =
          some (PyObj.pydict entries) →
      k ∈ p.optsKeysThatMustBeSet → optsKeySet entries k = false →
      ∀ msg ∈ validateMethodHasADefaultOpts p c methodName mt,
        pyIn k msg = true) := by
  constructor
  · rcases hL : lookupAttr c.attrs (generateOptsName methodName) with _ | v
    · exact ⟨fun _ => Or.inl rfl,
        fun _ => by rw [defaultOpts_eq_of_none hL]; exact List.cons_ne_nil _ _⟩
    · rcases v with _ | entries | s
      · exact ⟨fun _ => Or.inr (Or.inl ⟨PyObj.pynone, rfl, rfl⟩),
          fun _ => by
            rw [defaultOpts_eq_of_not_dict hL rfl]
            exact List.cons_ne_nil _ _⟩
      · rcases hall : p.optsKeysThatMustBeSet.all
            (fun key => optsKeySet entries key) with _ | _
        · constructor
          · intro _
            refine Or.inr (Or.inr ⟨entries, rfl, ?_⟩)
            obtain ⟨k, hk, hbad⟩ := List.all_eq_false.mp hall
            exact ⟨k, hk, by simpa using hbad⟩
          · intro _
            rw [defaultOpts_eq_of_missing_keys hL hall]
            exact List.cons_ne_nil _ _
        · constructor
          · intro hne
            exact absurd (defaultOpts_eq_of_all_set hL hall) hne
          · rintro (hnone | ⟨v, hv, hdict⟩ | ⟨entries2, hent, k, hk, hbad⟩)
            · exact Option.noConfusion hnone
            · obtain rfl := Option.some_injective _ hv
              exact Bool.noConfusion hdict
            · have hee : PyObj.pydict entries = PyObj.pydict entries2 :=
                Option.some_injective _ hent
              injection hee with hee2
              subst hee2
              have := List.all_eq_true.mp hall k hk
              rw [hbad] at this
              exact Bool.noConfusion this
      · exact ⟨fun _ => Or.inr (Or.inl ⟨PyObj.pyother s, rfl, rfl⟩),
          fun _ => by
            rw [defaultOpts_eq_of_not_dict hL rfl]
            exact List.cons_ne_nil _ _⟩
  · intro entries k hent hk hbad msg hmsg
    have hall : p.optsKeysThatMustBeSet.all
        (fun key => optsKeySet entries key) = false := by
      rcases h : p.optsKeysThatMustBeSet.all (fun key => optsKeySet entries key)
      · rfl
      · have := List.all_eq_true.mp h k hk
        rw [hbad] at this
        exact Bool.noConfusion this
    rw [defaultOpts_eq_of_missing_keys hent hall] at hmsg
    obtain rfl := List.mem_singleton.mp hmsg
    unfold optsMissingKeysMsg
    exact pyIn_append_right (pyIn_pyStrListRepr hk) _

/-! ### C1: fully compliant classes validate successfully -/

/-- C1's per-method conditions, read off the source's own classifiers:
exactly one caller-supplied parameter (two parameters including the
receiver) whose annotation is an accepted model type and not a
conflicting raw type, the same predicate on the return annotation, and an
`opts_<method>` dict attribute providing every required key non-null. -/
def methodFullyCompliant (p : Policy) (c : PyClass) (mt : PyMethod) : Prop :=
  mt.params.length = 2 ∧
  (∃ pr, mt.params[1]? = some pr ∧
    throwIfAnnIsDataclassOrNotChildOfBasemodel pr.ann = some true) ∧
  throwIfAnnIsDataclassOrNotChildOfBasemodel mt.retAnn = some true ∧
  (∃ entries, lookupAttr c.attrs (generateOptsName mt.mname) =
      some (PyObj.pydict entries) ∧
    (p.optsKeysThatMustBeSet.all fun key => optsKeySet entries key) = true)

/-- A class with no methods at all and no `"base"` in its name. -/
def cPlain : PyClass := ⟨2, "Plain", "pkg.mod", true, [], []⟩

/-- C1 counterexample: `Plain` has no marked methods at all, so every
marked method vacuously satisfies all of C1's conditions, yet `validate`
raises the no-marked-methods error instead of returning normally. -/
theorem compliant_vacuous_yet_error :
    cPlain.methods.filter
      (fun m => m.markers.contains activityPolicy.searchAttr) = [] ∧
    runValidatorsOnClass activityPolicy cPlain =
      Except.error (mkValidationError (noMarkedMsg activityPolicy cPlain) []) :=
  ⟨rfl, rfl⟩

/-- C1 (amended): a class whose every marked method is fully compliant
validates successfully, provided the class has at least one marked method
or carries `"base"` in its name (otherwise the no-marked-methods guard
fires first). -/
theorem validate_ok_of_fully_compliant (p : Policy) (c : PyClass)
    (hcomp : ∀ mt ∈ c.methods,
      mt.markers.contains p.searchAttr = true → methodFullyCompliant p c mt)
    (hnonvac : (∃ mt ∈ c.methods, mt.markers.contains p.searchAttr = true) ∨
      pyIn "base" (pyLower c.cname) = true) :
    runValidatorsOnClass p c = Except.ok () := by
  have hcol : collectMethodsToValidate p c = Except.ok
      ((c.methods.filter (fun m => m.markers.contains p.searchAttr)).map
        (fun m => (m.mname, m))) := by
    rcases hnonvac with ⟨mt, hmem, hmark⟩ | hbase
    · exact (collectMethods_ok_of_marked hmem hmark).1
    · simp only [collectMethodsToValidate, hbase, Bool.not_true,
        Bool.and_false, Bool.false_eq_true, if_false]
  have herr : runValidatorErrors p c
      ((c.methods.filter (fun m => m.markers.contains p.searchAttr)).map
        (fun m => (m.mname, m))) = [] := by
    unfold runValidatorErrors
    rw [List.flatMap_eq_nil_iff]
    intro nm hnm
    obtain ⟨mt, hmtf, rfl⟩ := List.mem_map.mp hnm
    obtain ⟨hmem, hmark⟩ := List.mem_filter.mp hmtf
    obtain ⟨hlen, ⟨pr, hpr, hprt⟩, hret, ⟨entries, hent, hall⟩⟩ :=
      hcomp mt hmem hmark
    rw [List.flatMap_eq_nil_iff]
    intro v hv
    simp only [baseValidators, List.mem_cons, List.not_mem_nil,
      or_false] at hv
    rcases hv with rfl | rfl | rfl | rfl
    · show List.map _ (validateMethodHasADefaultOpts p c mt.mname mt) = []
      rw [defaultOpts_eq_of_all_set hent hall]
      rfl
    · show List.map _
        (validateMethodInputArgIsPydanticSerializable p c mt.mname mt) = []
      simp only [validateMethodInputArgIsPydanticSerializable, hpr, hprt]
      rfl
    · show List.map _
        (validateMethodOutputIsPydanticSerializable p c mt.mname mt) = []
      unfold validateMethodOutputIsPydanticSerializable
      rw [hret]
      rfl
    · show List.map _ (validateMethodTakesASingleArg p c mt.mname mt) = []
      unfold validateMethodTakesASingleArg
      rw [hlen]
      rfl
  unfold runValidatorsOnClass
  rw [hcol]
  simp only [herr, List.isEmpty_nil, if_true]

/-- An opts dict providing both required activity keys. -/
def goodOpts : PyObj := PyObj.pydict
  [("start_to_close_timeout", PyObj.pyother "timedelta"),
   ("retry_policy", PyObj.pyother "RetryPolicy")]

/-- A fully compliant marked activity method. -/
def mGoodAct : PyMethod :=
  ⟨"act_good", [selfParam, ⟨"act_input", pydanticModelAnn⟩], pydanticModelAnn,
   [temporalActivityDefnSearchAttr]⟩

/-- A fully compliant activity class. -/
def cGoodActivity : PyClass :=
  ⟨3, "GoodActivity", "pkg.mod", true, [mGoodAct], [("opts_act_good", goodOpts)]⟩

/-- C1 amended-theorem witness at a concrete fully compliant class. -/
theorem validate_ok_of_fully_compliant_witness :
    runValidatorsOnClass activityPolicy cGoodActivity = Except.ok () :=
  validate_ok_of_fully_compliant activityPolicy cGoodActivity
    (by
      intro mt hmem hmark
      simp only [cGoodActivity] at hmem
      obtain rfl := List.mem_singleton.mp hmem
      exact ⟨rfl, ⟨⟨"act_input", pydanticModelAnn⟩, rfl, rfl⟩, rfl,
        ⟨[("start_to_close_timeout", PyObj.pyother "timedelta"),
          ("retry_policy", PyObj.pyother "RetryPolicy")], rfl, rfl⟩⟩)
    (Or.inl ⟨mGoodAct, by simp [cGoodActivity], rfl⟩)

/-- A dict providing only one of the two required activity opts keys. -/
def partialOpts : PyObj :=
  PyObj.pydict [("start_to_close_timeout", PyObj.pyother "timedelta")]

/-- A marked method whose opts dict lacks `retry_policy`. -/
def mActPartial : PyMethod :=
  ⟨"act_p", [selfParam, ⟨"act_input", pydanticModelAnn⟩], pydanticModelAnn,
   [temporalActivityDefnSearchAttr]⟩

/-- A class whose `opts_act_p` is missing the `retry_policy` key. -/
def cPartialOpts : PyClass :=
  ⟨7, "PartialOpts", "pkg.mod", true, [mActPartial],
   [("opts_act_p", partialOpts)]⟩

/-- C6 witness: for `PartialOpts`, whose `opts_act_p` lacks
`retry_policy`, the rule reports a violation naming `retry_policy`. -/
theorem defaultOpts_characterization_witness :
    validateMethodHasADefaultOpts activityPolicy cPartialOpts "act_p"
        mActPartial ≠ [] ∧
    ∀ msg ∈ validateMethodHasADefaultOpts activityPolicy cPartialOpts "act_p"
        mActPartial, pyIn "retry_policy" msg = true := by
  constructor
  · exact (defaultOpts_characterization activityPolicy cPartialOpts "act_p"
      mActPartial).1.mpr
      (Or.inr (Or.inr
        ⟨[("start_to_close_timeout", PyObj.pyother "timedelta")], rfl,
         "retry_policy", by decide, rfl⟩))
  · exact (defaultOpts_characterization activityPolicy cPartialOpts "act_p"
      mActPartial).2
      [("start_to_close_timeout", PyObj.pyother "timedelta")]
      "retry_policy" rfl (by decide) rfl

/-! ### C3: tagging of aggregated violation messages -/

set_option maxRecDepth 8000 in
/-- C3 counterexample: validating the `Slim` class raises, and the tagged
"no input" violation message in the raised error's list contains the rule
name and the validator class name but not the name of the validated
class (`classValidatorMsgs` is the `error_msgs` list of the raised
error). -/
theorem violation_message_lacks_class_name :
    classValidatorMsgs cSlim ≠ [] ∧
    tagError activityPolicy singleArgValidator (noInputMsg "act0") ∈
      classValidatorMsgs cSlim ∧
    pyIn "Slim"
      (tagError activityPolicy singleArgValidator (noInputMsg "act0")) =
      false := by
  refine ⟨?_, ?_, rfl⟩
  · exact List.cons_ne_nil _ _
  · exact List.mem_cons_of_mem _ (List.mem_cons_of_mem _
      (List.mem_cons_self _ _))

/-- Every violation message a rule returns names the method it concerns. -/
theorem rule_msgs_mention_method (p : Policy) (c : PyClass) (n : String)
    (mt : PyMethod) {v : NamedValidator} (hv : v ∈ baseValidators) :
    ∀ raw ∈ v.rule p c n mt, pyIn n raw = true := by
  simp only [baseValidators, List.mem_cons, List.not_mem_nil, or_false] at hv
  rcases hv with rfl | rfl | rfl | rfl
  · intro raw hraw
    have hraw2 : raw ∈ validateMethodHasADefaultOpts p c n mt := hraw
    unfold validateMethodHasADefaultOpts at hraw2
    split at hraw2
    · obtain rfl := List.mem_singleton.mp hraw2
      exact pyIn_append_left (pyIn_append_left (pyIn_append_left
        (pyIn_append_right (pyIn_refl _) _) _) _) _
    · split at hraw2
      · split at hraw2
        · obtain rfl := List.mem_singleton.mp hraw2
          exact pyIn_append_left (pyIn_append_left (pyIn_append_left
            (pyIn_append_left (pyIn_append_right (pyIn_refl _) _) _) _) _) _
        · exact absurd hraw2 (List.not_mem_nil _)
      · obtain rfl := List.mem_singleton.mp hraw2
        exact pyIn_append_left (pyIn_append_left (pyIn_append_left
          (pyIn_append_right (pyIn_refl _) _) _) _) _
  · intro raw hraw
    have hraw2 : raw ∈ validateMethodInputArgIsPydanticSerializable p c n mt :=
      hraw
    unfold validateMethodInputArgIsPydanticSerializable at hraw2
    split at hraw2
    · obtain rfl := List.mem_singleton.mp hraw2
      exact pyIn_append_left (pyIn_append_right (pyIn_refl _) _) _
    · split at hraw2
      · obtain rfl := List.mem_singleton.mp hraw2
        exact pyIn_append_left (pyIn_append_right (pyIn_refl _) _) _
      · obtain rfl := List.mem_singleton.mp hraw2
        exact pyIn_append_left (pyIn_append_left (pyIn_append_left
          (pyIn_append_right (pyIn_refl _) _) _) _) _
      · exact absurd hraw2 (List.not_mem_nil _)
  · intro raw hraw
    have hraw2 : raw ∈ validateMethodOutputIsPydanticSerializable p c n mt :=
      hraw
    unfold validateMethodOutputIsPydanticSerializable at hraw2
    split at hraw2
    · obtain rfl := List.mem_singleton.mp hraw2
      exact pyIn_append_left (pyIn_append_right (pyIn_refl _) _) _
    · obtain rfl := List.mem_singleton.mp hraw2
      exact pyIn_append_left (pyIn_append_right (pyIn_refl _) _) _
    · exact absurd hraw2 (List.not_mem_nil _)
  · intro raw hraw
    have hraw2 : raw ∈ validateMethodTakesASingleArg p c n mt := hraw
    unfold validateMethodTakesASingleArg at hraw2
    split at hraw2
    · obtain rfl := List.mem_singleton.mp hraw2
      exact pyIn_append_left (pyIn_append_right (pyIn_refl _) _) _
    · split at hraw2
      · obtain rfl := List.mem_singleton.mp hraw2
        exact pyIn_append_left (pyIn_append_right (pyIn_refl _) _) _
      · exact absurd hraw2 (List.not_mem_nil _)

/-- C3 (amended): every message in the aggregated error list is a rule's
violation string tagged, in the shape
`message |Reported via <validator class>.<rule name>()`, with the
validator class name and the rule name that produced it, and the raw
message names the method that violated the rule; the validated class's
name appears in the wrapping error message rather than in each tag. -/
theorem error_msgs_are_tagged (p : Policy) (c : PyClass)
    (fns : List (String × PyMethod))
    (hok : collectMethodsToValidate p c = Except.ok fns)
    (err : TemporalUtilsValidationError)
    (herr : runValidatorsOnClass p c = Except.error err) :
    ∀ msg ∈ err.error_msgs, ∃ nm v raw,
      nm ∈ fns ∧ v ∈ baseValidators ∧ raw ∈ v.rule p c nm.1 nm.2 ∧
      msg = raw ++ " |Reported via " ++ p.validatorClassName ++ "." ++
        v.vname ++ "()" ∧
      pyIn nm.1 raw = true := by
  unfold runValidatorsOnClass at herr
  rw [hok] at herr
  have herr2 : (if (runValidatorErrors p c fns).isEmpty = true then
      (Except.ok () : Except TemporalUtilsValidationError Unit)
    else Except.error (mkValidationError
      ("Validation Errors found in class `" ++ c.cname ++ "`: " ++
        pyStrListRepr (runValidatorErrors p c fns))
      (runValidatorErrors p c fns))) = Except.error err := herr
  clear herr
  rcases hE : (runValidatorErrors p c fns).isEmpty with _ | _
  · rw [hE] at herr2
    simp only [Bool.false_eq_true, if_false] at herr2
    obtain rfl : err = mkValidationError
        ("Validation Errors found in class `" ++ c.cname ++ "`: " ++
          pyStrListRepr (runValidatorErrors p c fns))
        (runValidatorErrors p c fns) := by
      exact ((Except.error.injEq _ _).mp herr2).symm
    rw [mkValidationError_msgs_of_ne hE]
    intro msg hmsg
    unfold runValidatorErrors at hmsg
    obtain ⟨nm, hnm, hmsg2⟩ := List.mem_flatMap.mp hmsg
    obtain ⟨v, hv, hmsg3⟩ := List.mem_flatMap.mp hmsg2
    obtain ⟨raw, hraw, rfl⟩ := List.mem_map.mp hmsg3
    exact ⟨nm, v, raw, hnm, hv, hraw, rfl,
      rule_msgs_mention_method p c nm.1 nm.2 hv raw hraw⟩
  · rw [hE] at herr2
    simp only [if_true] at herr2
    exact Except.noConfusion herr2

set_option maxRecDepth 8000 in
/-- C3 amended-theorem witness: the `Slim` class's tagged single-argument
violation message decomposes as a rule message, naming the method, tagged
with the validator class name and the rule name. -/
theorem error_msgs_are_tagged_witness :
    ∃ nm v raw,
      nm ∈ [("act0", mNoInput)] ∧ v ∈ baseValidators ∧
      raw ∈ v.rule activityPolicy cSlim nm.1 nm.2 ∧
      tagError activityPolicy singleArgValidator (noInputMsg "act0") =
        raw ++ " |Reported via " ++ activityPolicy.validatorClassName ++
        "." ++ v.vname ++ "()" ∧
      pyIn nm.1 raw = true :=
  error_msgs_are_tagged activityPolicy cSlim [("act0", mNoInput)] rfl _ rfl
    (tagError activityPolicy singleArgValidator (noInputMsg "act0"))
    (List.mem_cons_of_mem _ (List.mem_cons_of_mem _
      (List.mem_cons_self _ _)))

theorem collectLoop_visited_nodup (g : ModuleGraph)
    (visited : List Nat) (acc : List PyClass) (ts : List CTask) :
    visited.Nodup → ((collectLoop g visited acc ts).1).Nodup := by
  induction visited, acc, ts using collectLoop.induct g with
  | case1 visited acc =>
      intro hnd
      simpa only [collectLoop] using hnd
  | case2 visited acc mid rest h ih =>
      intro hnd
      simp only [collectLoop, h, if_true]
      exact ih hnd
  | case3 visited acc mid rest h hf ih =>
      intro hnd
      simp only [collectLoop, h, if_neg, if_false]
      split
      · exact ih (List.nodup_cons.mpr ⟨h, hnd⟩)
      · rename_i node heq
        rw [hf] at heq
        exact Option.noConfusion heq
  | case4 visited acc mid rest h node hf ih =>
      intro hnd
      simp only [collectLoop, h, if_neg, if_false]
      split
      · rename_i heq
        rw [hf] at heq
        exact Option.noConfusion heq
      · rename_i node2 heq
        rw [hf] at heq
        obtain rfl := Option.some_injective _ heq
        exact ih (List.nodup_cons.mpr ⟨h, hnd⟩)
  | case5 visited acc base rest ih =>
      intro hnd
      simp only [collectLoop]
      exact ih hnd
  | case6 visited acc base c ms rest ih =>
      intro hnd
      simp only [collectLoop]
      exact ih hnd
  | case7 visited acc base mid mname ms rest h ih =>
      intro hnd
      simp only [collectLoop, h, if_true] at ih ⊢
      exact ih hnd
  | case8 visited acc base mid mname ms rest h ih =>
      intro hnd
      simp only [collectLoop, h, if_false]
      exact ih hnd
  | case9 visited acc base ms rest ih =>
      intro hnd
      simp only [collectLoop]
      exact ih hnd

/-! ### Step equations of the traversal -/

theorem collectLoop_nil (g : ModuleGraph) (visited : List Nat)
    (acc : List PyClass) : collectLoop g visited acc [] = (visited, acc) := by
  rw [collectLoop.eq_def]

theorem collectLoop_visit_seen {g : ModuleGraph} {visited : List Nat}
    {acc : List PyClass} {mid : Nat} {rest : List CTask}
    (h : mid ∈ visited) :
    collectLoop g visited acc (CTask.visitTask mid :: rest) =
      collectLoop g visited acc rest := by
  simp only [collectLoop, h, if_true]

theorem collectLoop_visit_missing {g : ModuleGraph} {visited : List Nat}
    {acc : List PyClass} {mid : Nat} {rest : List CTask}
    (h : mid ∉ visited) (hf : findNode g mid = none) :
    collectLoop g visited acc (CTask.visitTask mid :: rest) =
      collectLoop g (mid :: visited) acc rest := by
  simp only [collectLoop, h, if_neg, if_false]
  split
  · rfl
  · rename_i node heq
    rw [hf] at heq
    exact Option.noConfusion heq

theorem collectLoop_visit_found {g : ModuleGraph} {visited : List Nat}
    {acc : List PyClass} {mid : Nat} {rest : List CTask} {node : PyModuleNode}
    (h : mid ∉ visited) (hf : findNode g mid = some node) :
    collectLoop g visited acc (CTask.visitTask mid :: rest) =
      collectLoop g (mid :: visited) acc
        (CTask.scanTask (basePackageOf node.fullName) node.members :: rest) := by
  simp only [collectLoop, h, if_neg, if_false]
  split
  · rename_i heq
    rw [hf] at heq
    exact Option.noConfusion heq
  · rename_i node2 heq
    rw [hf] at heq
    obtain rfl := Option.some_injective _ heq
    rfl

theorem collectLoop_scan_nil {g : ModuleGraph} {visited : List Nat}
    {acc : List PyClass} {base : String} {rest : List CTask} :
    collectLoop g visited acc (CTask.scanTask base [] :: rest) =
      collectLoop g visited acc rest := by
  simp only [collectLoop]

theorem collectLoop_scan_class {g : ModuleGraph} {visited : List Nat}
    {acc : List PyClass} {base : String} {c : PyClass} {ms : List PyMember}
    {rest : List CTask} :
    collectLoop g visited acc
        (CTask.scanTask base (PyMember.classMem c :: ms) :: rest) =
      collectLoop g visited
        (if c.hasModuleAttr && pyStartsWith c.moduleName base then acc ++ [c]
         else acc)
        (CTask.scanTask base ms :: rest) := by
  simp only [collectLoop]

theorem collectLoop_scan_module_true {g : ModuleGraph} {visited : List Nat}
    {acc : List PyClass} {base mname : String} {mid : Nat}
    {ms : List PyMember} {rest : List CTask}
    (h : pyStartsWith mname base = true) :
    collectLoop g visited acc
        (CTask.scanTask base (PyMember.moduleMem mid mname :: ms) :: rest) =
      collectLoop g visited acc
        (CTask.visitTask mid :: CTask.scanTask base ms :: rest) := by
  simp only [collectLoop, h, if_true]

theorem collectLoop_scan_module_false {g : ModuleGraph} {visited : List Nat}
    {acc : List PyClass} {base mname : String} {mid : Nat}
    {ms : List PyMember} {rest : List CTask}
    (h : ¬ pyStartsWith mname base = true) :
    collectLoop g visited acc
        (CTask.scanTask base (PyMember.moduleMem mid mname :: ms) :: rest) =
      collectLoop g visited acc (CTask.scanTask base ms :: rest) := by
  simp only [collectLoop, h, Bool.false_eq_true, if_false]

theorem collectLoop_scan_other {g : ModuleGraph} {visited : List Nat}
    {acc : List PyClass} {base : String} {ms : List PyMember}
    {rest : List CTask} :
    collectLoop g visited acc
        (CTask.scanTask base (PyMember.otherMem :: ms) :: rest) =
      collectLoop g visited acc (CTask.scanTask base ms :: rest) := by
  simp only [collectLoop]

/-! ### C2: duplicates and completeness of the collector -/

/-- A class reachable under two distinct member names of one module. -/
def aliasedClass : PyClass := ⟨100, "Aliased", "pkg", true, [], []⟩

/-- A module `pkg` whose namespace holds the same class object under two
different names (`class Aliased` plus an alias assignment): `dir` lists
both names and `getattr` returns the same object for each. -/
def gAlias : ModuleGraph :=
  [⟨0, "pkg",
    [PyMember.classMem aliasedClass, PyMember.classMem aliasedClass]⟩]

theorem gAlias_run : collectLoop gAlias [] [] [CTask.visitTask 0] =
    ([0], [aliasedClass, aliasedClass]) := by
  have s1 : collectLoop gAlias [] [] [CTask.visitTask 0] =
      collectLoop gAlias [0] []
        [CTask.scanTask "pkg"
          [PyMember.classMem aliasedClass, PyMember.classMem aliasedClass]] :=
    @collectLoop_visit_found gAlias [] [] 0 []
      ⟨0, "pkg", [PyMember.classMem aliasedClass, PyMember.classMem aliasedClass]⟩
      (by decide) rfl
  have s2 : collectLoop gAlias [0] []
        [CTask.scanTask "pkg"
          [PyMember.classMem aliasedClass, PyMember.classMem aliasedClass]] =
      collectLoop gAlias [0] [aliasedClass]
        [CTask.scanTask "pkg" [PyMember.classMem aliasedClass]] :=
    collectLoop_scan_class
  have s3 : collectLoop gAlias [0] [aliasedClass]
        [CTask.scanTask "pkg" [PyMember.classMem aliasedClass]] =
      collectLoop gAlias [0] [aliasedClass, aliasedClass]
        [CTask.scanTask "pkg" []] :=
    collectLoop_scan_class
  have s4 : collectLoop gAlias [0] [aliasedClass, aliasedClass]
        [CTask.scanTask "pkg" []] =
      collectLoop gAlias [0] [aliasedClass, aliasedClass] [] :=
    collectLoop_scan_nil
  rw [s1, s2, s3, s4, collectLoop_nil]

/-- C2 counterexample: the aliased class appears twice in the collector's
result — the `visited` set deduplicates module visits, never classes, so
a class reachable under two member names is not collected a single time. -/
theorem collector_duplicates_aliased_class :
    getAllClassesFromModuleAndSubmodules gAlias 0 =
      [aliasedClass, aliasedClass] ∧
    ((getAllClassesFromModuleAndSubmodules gAlias 0).map
      (fun c => c.objId)).count 100 = 2 := by
  have heq : getAllClassesFromModuleAndSubmodules gAlias 0 =
      [aliasedClass, aliasedClass] := by
    unfold getAllClassesFromModuleAndSubmodules
    rw [gAlias_run]
  refine ⟨heq, ?_⟩
  rw [heq]
  rfl

/-- The completeness property of one pending scan task: every matching
class member it still has to process ends up in the final result. -/
def scanTaskComplete (res : List PyClass) : CTask → Prop
  | CTask.visitTask _ => True
  | CTask.scanTask base ms => ∀ c, PyMember.classMem c ∈ ms →
      (c.hasModuleAttr && pyStartsWith c.moduleName base) = true → c ∈ res

/-- The completeness property of one visited module: every matching class
member of its node is in the final result. -/
def nodeComplete (g : ModuleGraph) (res : List PyClass) (id : Nat) : Prop :=
  ∀ node, findNode g id = some node →
    ∀ c, PyMember.classMem c ∈ node.members →
    (c.hasModuleAttr && pyStartsWith c.moduleName
      (basePackageOf node.fullName)) = true →
    c ∈ res

theorem collectLoop_complete (g : ModuleGraph) (visited : List Nat)
    (acc : List PyClass) (ts : List CTask) :
    (∀ x ∈ acc, x ∈ (collectLoop g visited acc ts).2) ∧
    (∀ t ∈ ts, scanTaskComplete (collectLoop g visited acc ts).2 t) ∧
    (∀ id ∈ (collectLoop g visited acc ts).1,
      id ∈ visited ∨ nodeComplete g (collectLoop g visited acc ts).2 id) := by
  induction visited, acc, ts using collectLoop.induct g with
  | case1 visited acc =>
      rw [collectLoop_nil]
      exact ⟨fun x hx => hx,
        fun t ht => absurd ht (List.not_mem_nil _),
        fun id hid => Or.inl hid⟩
  | case2 visited acc mid rest h ih =>
      rw [collectLoop_visit_seen h]
      obtain ⟨ihA, ihB, ihC⟩ := ih
      refine ⟨ihA, ?_, ihC⟩
      intro t ht
      rcases List.mem_cons.mp ht with rfl | ht2
      · trivial
      · exact ihB t ht2
  | case3 visited acc mid rest h hf ih =>
      rw [collectLoop_visit_missing h hf]
      obtain ⟨ihA, ihB, ihC⟩ := ih
      refine ⟨ihA, ?_, ?_⟩
      · intro t ht
        rcases List.mem_cons.mp ht with rfl | ht2
        · trivial
        · exact ihB t ht2
      · intro id hid
        rcases ihC id hid with hin | hP
        · rcases List.mem_cons.mp hin with rfl | hin2
          · refine Or.inr ?_
            intro node hnode
            rw [hf] at hnode
            exact Option.noConfusion hnode
          · exact Or.inl hin2
        · exact Or.inr hP
  | case4 visited acc mid rest h node hf ih =>
      rw [collectLoop_visit_found h hf]
      obtain ⟨ihA, ihB, ihC⟩ := ih
      refine ⟨ihA, ?_, ?_⟩
      · intro t ht
        rcases List.mem_cons.mp ht with rfl | ht2
        · trivial
        · exact ihB t (List.mem_cons_of_mem _ ht2)
      · intro id hid
        rcases ihC id hid with hin | hP
        · rcases List.mem_cons.mp hin with rfl | hin2
          · refine Or.inr ?_
            intro node0 hnode0 c hcmem hcond
            rw [hf] at hnode0
            obtain rfl := Option.some_injective _ hnode0
            exact ihB _ (List.mem_cons_self _ _) c hcmem hcond
          · exact Or.inl hin2
        · exact Or.inr hP
  | case5 visited acc base rest ih =>
      rw [collectLoop_scan_nil]
      obtain ⟨ihA, ihB, ihC⟩ := ih
      refine ⟨ihA, ?_, ihC⟩
      intro t ht
      rcases List.mem_cons.mp ht with rfl | ht2
      · intro c hc hcond
        exact absurd hc (List.not_mem_nil _)
      · exact ihB t ht2
  | case6 visited acc base c ms rest ih =>
      rw [collectLoop_scan_class]
      obtain ⟨ihA, ihB, ihC⟩ := ih
      have hacc : ∀ x ∈ acc,
          x ∈ (if c.hasModuleAttr && pyStartsWith c.moduleName base then
            acc ++ [c] else acc) := by
        intro x hx
        rcases hcnd : c.hasModuleAttr && pyStartsWith c.moduleName base
        · simpa [hcnd] using hx
        · simp only [hcnd, if_true]
          exact List.mem_append_left _ hx
      refine ⟨fun x hx => ihA x (hacc x hx), ?_, ihC⟩
      intro t ht
      rcases List.mem_cons.mp ht with rfl | ht2
      · intro c2 hc2 hcond2
        rcases List.mem_cons.mp hc2 with heq | hc3
        · have hcc : c2 = c := by
            injection heq
          subst hcc
          apply ihA
          simp only [hcond2, if_true]
          exact List.mem_append_right _ (List.mem_singleton.mpr rfl)
        · exact ihB _ (List.mem_cons_self _ _) c2 hc3 hcond2
      · exact ihB t (List.mem_cons_of_mem _ ht2)
  | case7 visited acc base mid mname ms rest h ih =>
      rw [collectLoop_scan_module_true h]
      obtain ⟨ihA, ihB, ihC⟩ := ih
      refine ⟨ihA, ?_, ihC⟩
      intro t ht
      rcases List.mem_cons.mp ht with rfl | ht2
      · intro c2 hc2 hcond2
        rcases List.mem_cons.mp hc2 with heq | hc3
        · exact PyMember.noConfusion heq
        · exact ihB _ (List.mem_cons_of_mem _ (List.mem_cons_self _ _))
            c2 hc3 hcond2
      · exact ihB t (List.mem_cons_of_mem _ (List.mem_cons_of_mem _ ht2))
  | case8 visited acc base mid mname ms rest h ih =>
      rw [collectLoop_scan_module_false h]
      obtain ⟨ihA, ihB, ihC⟩ := ih
      refine ⟨ihA, ?_, ihC⟩
      intro t ht
      rcases List.mem_cons.mp ht with rfl | ht2
      · intro c2 hc2 hcond2
        rcases List.mem_cons.mp hc2 with heq | hc3
        · exact PyMember.noConfusion heq
        · exact ihB _ (List.mem_cons_self _ _) c2 hc3 hcond2
      · exact ihB t (List.mem_cons_of_mem _ ht2)
  | case9 visited acc base ms rest ih =>
      rw [collectLoop_scan_other]
      obtain ⟨ihA, ihB, ihC⟩ := ih
      refine ⟨ihA, ?_, ihC⟩
      intro t ht
      rcases List.mem_cons.mp ht with rfl | ht2
      · intro c2 hc2 hcond2
        rcases List.mem_cons.mp hc2 with heq | hc3
        · exact PyMember.noConfusion heq
        · exact ihB _ (List.mem_cons_self _ _) c2 hc3 hcond2
      · exact ihB t (List.mem_cons_of_mem _ ht2)

/-- C2 (amended): module visits are deduplicated, not classes — every
matching class member of every visited module appears in the result at
least once, but a class reachable under two member names (or through two
modules) appears once per occurrence rather than exactly once. -/
theorem collector_complete (g : ModuleGraph) (rootId : Nat) :
    ∀ id ∈ collectVisited g rootId, ∀ node, findNode g id = some node →
      ∀ c, PyMember.classMem c ∈ node.members →
      (c.hasModuleAttr && pyStartsWith c.moduleName
        (basePackageOf node.fullName)) = true →
      c ∈ getAllClassesFromModuleAndSubmodules g rootId := by
  intro id hid node hnode c hc hcond
  obtain ⟨_, _, hC⟩ := collectLoop_complete g [] [] [CTask.visitTask rootId]
  rcases hC id hid with hin | hP
  · exact absurd hin (List.not_mem_nil _)
  · exact hP node hnode c hc hcond

/-- C2 amended-theorem witness: the aliased class of `gAlias` is indeed
collected (and, per the counterexample, collected twice). -/
theorem collector_complete_witness :
    aliasedClass ∈ getAllClassesFromModuleAndSubmodules gAlias 0 :=
  collector_complete gAlias 0 0
    (by
      unfold collectVisited
      rw [gAlias_run]
      exact List.mem_singleton.mpr rfl)
    ⟨0, "pkg", [PyMember.classMem aliasedClass, PyMember.classMem aliasedClass]⟩
    rfl aliasedClass (List.mem_cons_self _ _) rfl

/-! ### C9: termination and visit uniqueness of the traversal -/

/-- A class inside the submodule of the circular graph below. -/
def cycClass : PyClass := ⟨200, "InSub", "pkg.sub", true, [], []⟩

/-- A circular module graph: `pkg` imports `pkg.sub`, which re-imports
`pkg`. -/
def gCyc : ModuleGraph :=
  [⟨0, "pkg", [PyMember.moduleMem 1 "pkg.sub"]⟩,
   ⟨1, "pkg.sub", [PyMember.classMem cycClass, PyMember.moduleMem 0 "pkg"]⟩]

theorem gCyc_run : collectLoop gCyc [] [] [CTask.visitTask 0] =
    ([1, 0], [cycClass]) := by
  have s1 : collectLoop gCyc [] [] [CTask.visitTask 0] =
      collectLoop gCyc [0] []
        [CTask.scanTask "pkg" [PyMember.moduleMem 1 "pkg.sub"]] :=
    @collectLoop_visit_found gCyc [] [] 0 []
      ⟨0, "pkg", [PyMember.moduleMem 1 "pkg.sub"]⟩ (by decide) rfl
  have s2 : collectLoop gCyc [0] []
        [CTask.scanTask "pkg" [PyMember.moduleMem 1 "pkg.sub"]] =
      collectLoop gCyc [0] []
        [CTask.visitTask 1, CTask.scanTask "pkg" []] :=
    collectLoop_scan_module_true (by decide)
  have s3 : collectLoop gCyc [0] []
        [CTask.visitTask 1, CTask.scanTask "pkg" []] =
      collectLoop gCyc [1, 0] []
        [CTask.scanTask "pkg"
          [PyMember.classMem cycClass, PyMember.moduleMem 0 "pkg"],
         CTask.scanTask "pkg" []] :=
    @collectLoop_visit_found gCyc [0] [] 1 [CTask.scanTask "pkg" []]
      ⟨1, "pkg.sub", [PyMember.classMem cycClass, PyMember.moduleMem 0 "pkg"]⟩
      (by decide) rfl
  have s4 : collectLoop gCyc [1, 0] []
        [CTask.scanTask "pkg"
          [PyMember.classMem cycClass, PyMember.moduleMem 0 "pkg"],
         CTask.scanTask "pkg" []] =
      collectLoop gCyc [1, 0] [cycClass]
        [CTask.scanTask "pkg" [PyMember.moduleMem 0 "pkg"],
         CTask.scanTask "pkg" []] :=
    collectLoop_scan_class
  have s5 : collectLoop gCyc [1, 0] [cycClass]
        [CTask.scanTask "pkg" [PyMember.moduleMem 0 "pkg"],
         CTask.scanTask "pkg" []] =
      collectLoop gCyc [1, 0] [cycClass]
        [CTask.visitTask 0, CTask.scanTask "pkg" [],
         CTask.scanTask "pkg" []] :=
    collectLoop_scan_module_true (by decide)
  have s6 : collectLoop gCyc [1, 0] [cycClass]
        [CTask.visitTask 0, CTask.scanTask "pkg" [],
         CTask.scanTask "pkg" []] =
      collectLoop gCyc [1, 0] [cycClass]
        [CTask.scanTask "pkg" [], CTask.scanTask "pkg" []] :=
    collectLoop_visit_seen (by decide)
  rw [s1, s2, s3, s4, s5, s6, collectLoop_scan_nil, collectLoop_scan_nil,
    collectLoop_nil]

/-- C9: the traversal is a total function (defined above by well-founded
recursion on the pair (unvisited module count, stack size)) and each
module identity is visited at most once: the returned `visited` list has
no duplicates for every module graph; on the circular two-module graph
`gCyc` (a module importing a descendant that re-imports it) it terminates
after visiting each module exactly once. -/
theorem collector_terminates_visits_once :
    (∀ (g : ModuleGraph) (rootId : Nat), (collectVisited g rootId).Nodup) ∧
    collectVisited gCyc 0 = [1, 0] := by
  constructor
  · intro g rootId
    exact collectLoop_visited_nodup g [] [] [CTask.visitTask rootId]
      List.nodup_nil
  · unfold collectVisited
    rw [gCyc_run]

/-! ### C8: the bulk validator -/

/-- C8: the bulk validator validates every class with at least one marked
method and does not stop at the first failure: on success it returns the
(class, marked-methods) pairs; on failure it raises a single aggregate
error whose message list is exactly the concatenation of all failing
classes\x27 violation messages, and every violation message of every
failing class is in it. -/
theorem bulk_validation (g : ModuleGraph) (rootId : Nat) :
    ((∀ pr ∈ getClassesWithActivityMethods
        (getAllClassesFromModuleAndSubmodules g rootId),
      classValidatorMsgs pr.1 = []) →
      bulkValidateModuleActivities g rootId = Except.ok
        (getClassesWithActivityMethods
          (getAllClassesFromModuleAndSubmodules g rootId))) ∧
    (∀ err, bulkValidateModuleActivities g rootId = Except.error err →
      err.error_msgs = (getClassesWithActivityMethods
        (getAllClassesFromModuleAndSubmodules g rootId)).flatMap
        (fun pr => classValidatorMsgs pr.1)) ∧
    (∀ pr ∈ getClassesWithActivityMethods
        (getAllClassesFromModuleAndSubmodules g rootId),
      ∀ m ∈ classValidatorMsgs pr.1,
      ∃ err, bulkValidateModuleActivities g rootId = Except.error err ∧
        m ∈ err.error_msgs) := by
  refine ⟨?_, ?_, ?_⟩
  · intro hall
    have hnil : (getClassesWithActivityMethods
        (getAllClassesFromModuleAndSubmodules g rootId)).flatMap
        (fun pr => classValidatorMsgs pr.1) = [] :=
      List.flatMap_eq_nil_iff.mpr hall
    unfold bulkValidateModuleActivities
    rw [hnil]
    rfl
  · intro err herr
    unfold bulkValidateModuleActivities at herr
    rcases hE : ((getClassesWithActivityMethods
        (getAllClassesFromModuleAndSubmodules g rootId)).flatMap
        (fun pr => classValidatorMsgs pr.1)).isEmpty with _ | _
    · rw [hE] at herr
      simp only [Bool.false_eq_true, if_false] at herr
      obtain rfl := ((Except.error.injEq _ _).mp herr).symm
      rw [mkValidationError_msgs_of_ne hE]
    · rw [hE] at herr
      simp only [if_true] at herr
      exact Except.noConfusion herr
  · intro pr hpr m hm
    have hmem : m ∈ (getClassesWithActivityMethods
        (getAllClassesFromModuleAndSubmodules g rootId)).flatMap
        (fun pr => classValidatorMsgs pr.1) :=
      List.mem_flatMap.mpr ⟨pr, hpr, hm⟩
    have hne := isEmpty_false_of_mem hmem
    refine ⟨mkValidationError
      ("Validation Errors found in module `" ++ rootModuleName g rootId ++
       "`: " ++ pyStrListRepr ((getClassesWithActivityMethods
          (getAllClassesFromModuleAndSubmodules g rootId)).flatMap
          (fun pr => classValidatorMsgs pr.1)))
      ((getClassesWithActivityMethods
        (getAllClassesFromModuleAndSubmodules g rootId)).flatMap
        (fun pr => classValidatorMsgs pr.1)), ?_, ?_⟩
    · unfold bulkValidateModuleActivities
      rw [hne]
      rfl
    · rw [mkValidationError_msgs_of_ne hne]
      exact hmem

/-- A class with one marked zero-argument activity and no opts: fails. -/
def cFailOne : PyClass := ⟨301, "FailOne", "mod", true, [mNoInput], []⟩

/-- A fully compliant activity class in the same module: passes. -/
def cPassOne : PyClass :=
  ⟨302, "PassOne", "mod", true, [mGoodAct], [("opts_act_good", goodOpts)]⟩

/-- A class whose opts dict lacks a required key: fails. -/
def cFailTwo : PyClass :=
  ⟨303, "FailTwo", "mod", true, [mActPartial], [("opts_act_p", partialOpts)]⟩

/-- A class with no marked methods: filtered out, never validated. -/
def cHelper : PyClass := ⟨304, "Helper", "mod", true, [], []⟩

/-- A module with two failing classes separated by a passing one. -/
def gBulk : ModuleGraph :=
  [⟨0, "mod",
    [PyMember.classMem cFailOne, PyMember.classMem cPassOne,
     PyMember.classMem cFailTwo, PyMember.classMem cHelper]⟩]

theorem gBulk_run : collectLoop gBulk [] [] [CTask.visitTask 0] =
    ([0], [cFailOne, cPassOne, cFailTwo, cHelper]) := by
  have s1 : collectLoop gBulk [] [] [CTask.visitTask 0] =
      collectLoop gBulk [0] []
        [CTask.scanTask "mod"
          [PyMember.classMem cFailOne, PyMember.classMem cPassOne,
           PyMember.classMem cFailTwo, PyMember.classMem cHelper]] :=
    @collectLoop_visit_found gBulk [] [] 0 []
      ⟨0, "mod",
        [PyMember.classMem cFailOne, PyMember.classMem cPassOne,
         PyMember.classMem cFailTwo, PyMember.classMem cHelper]⟩
      (by decide) rfl
  rw [s1, collectLoop_scan_class, collectLoop_scan_class,
    collectLoop_scan_class, collectLoop_scan_class, collectLoop_scan_nil,
    collectLoop_nil]
  rfl

theorem gBulk_pairs : getClassesWithActivityMethods
    (getAllClassesFromModuleAndSubmodules gBulk 0) =
    [(cFailOne, [mNoInput]), (cPassOne, [mGoodAct]),
     (cFailTwo, [mActPartial])] := by
  have hcl : getAllClassesFromModuleAndSubmodules gBulk 0 =
      [cFailOne, cPassOne, cFailTwo, cHelper] := by
    unfold getAllClassesFromModuleAndSubmodules
    rw [gBulk_run]
  rw [hcl]
  rfl

/-- A module with only the passing class. -/
def gGood : ModuleGraph := [⟨0, "mod", [PyMember.classMem cPassOne]⟩]

theorem gGood_pairs : getClassesWithActivityMethods
    (getAllClassesFromModuleAndSubmodules gGood 0) =
    [(cPassOne, [mGoodAct])] := by
  have s1 : collectLoop gGood [] [] [CTask.visitTask 0] =
      collectLoop gGood [0] []
        [CTask.scanTask "mod" [PyMember.classMem cPassOne]] :=
    @collectLoop_visit_found gGood [] [] 0 []
      ⟨0, "mod", [PyMember.classMem cPassOne]⟩ (by decide) rfl
  have hcl : getAllClassesFromModuleAndSubmodules gGood 0 = [cPassOne] := by
    unfold getAllClassesFromModuleAndSubmodules
    rw [s1, collectLoop_scan_class, collectLoop_scan_nil, collectLoop_nil]
    rfl
  rw [hcl]
  rfl

/-- C8 witness: on `gBulk` the aggregate error contains a violation from
`FailOne` and one from `FailTwo` (with the passing class in between, so
validation did not stop at the first failure); on `gGood` the bulk
validator returns the (class, methods) pairs. -/
theorem bulk_validation_witness :
    (∃ err, bulkValidateModuleActivities gBulk 0 = Except.error err ∧
      tagError activityPolicy singleArgValidator (noInputMsg "act0") ∈
        err.error_msgs) ∧
    (∃ err, bulkValidateModuleActivities gBulk 0 = Except.error err ∧
      tagError activityPolicy defaultOptsValidator
        (optsMissingKeysMsg activityPolicy cFailTwo "act_p") ∈
        err.error_msgs) ∧
    bulkValidateModuleActivities gGood 0 =
      Except.ok [(cPassOne, [mGoodAct])] := by
  refine ⟨?_, ?_, ?_⟩
  · exact (bulk_validation gBulk 0).2.2 (cFailOne, [mNoInput])
      (by rw [gBulk_pairs]; exact List.mem_cons_self _ _) _
      (List.mem_cons_of_mem _ (List.mem_cons_of_mem _
        (List.mem_cons_self _ _)))
  · exact (bulk_validation gBulk 0).2.2 (cFailTwo, [mActPartial])
      (by
        rw [gBulk_pairs]
        exact List.mem_cons_of_mem _ (List.mem_cons_of_mem _
          (List.mem_cons_self _ _))) _
      (List.mem_cons_self _ _)
  · have h := (bulk_validation gGood 0).1
      (by
        intro pr hpr
        rw [gGood_pairs] at hpr
        obtain rfl := List.mem_singleton.mp hpr
        rfl)
    rw [gGood_pairs] at h
    exact h

end TemporalUtils
